import Mathlib

/-!
Verification of the `ti/drivers/utils/Random.h` pseudo-random number module
(xorwow generator with a Weyl counter, 20 bytes of state).

The repository ships only the header `Random.h` (constants, declarations and
documentation); the implementation translation unit is not among the sources.
The constants (`Random_STATUS_SUCCESS`, `Random_STATUS_ERROR`,
`Random_SEED_LENGTH`) are taken from the header; each operation is modelled
from the specification, which fixes the algorithm (xorwow per Marsaglia with
canonical shift parameters 2, 1, 4, a Weyl counter with a fixed odd additive
constant, output = newest xorshift word + counter mod 2^32) and instructs the
implementer to fix and document an endianness convention.  We fix the
little-endian convention throughout, used consistently for the seed layout
and for the byte-stream output.

Machine integers are embedded as `Nat` with explicit reduction modulo `2^32`
(`uint32_t` arithmetic); bytes are `Nat` values below 256 (`uint8_t`).
-/

namespace TiRandom

/-- The modulus of 32-bit unsigned arithmetic, `2^32`. -/
def U32MOD : Nat := 4294967296

/-- Reduce a natural number into `uint32_t` range (arithmetic modulo `2^32`). -/
def u32 (x : Nat) : Nat := x % U32MOD

/-- `Random_STATUS_SUCCESS`, value `0`, from `Random.h`. -/
def Random_STATUS_SUCCESS : Int := 0

/-- `Random_STATUS_ERROR`, value `-1`, from `Random.h`. -/
def Random_STATUS_ERROR : Int := -1

/-- `Random_SEED_LENGTH`, value `20` bytes, from `Random.h`. -/
def Random_SEED_LENGTH : Nat := 20

/-- The five-word generator state: four xorshift words `s0 s1 s2 s3` plus the
Weyl counter word, 20 bytes in total.  This is the sole shared mutable state of
the module; the embedding passes it explicitly. -/
structure RandomState where
  s0 : Nat
  s1 : Nat
  s2 : Nat
  s3 : Nat
  counter : Nat
deriving Repr, DecidableEq

/-- The all-zero generator state. -/
def zeroState : RandomState := ⟨0, 0, 0, 0, 0⟩

/-- Modelled from the spec: the fixed odd additive constant of the Weyl
counter (the implementation file is absent from the sources; the spec requires
"a fixed odd additive constant" and 362437 is the canonical xorwow value). -/
def weylConstant : Nat := 362437

/-- Modelled from the spec: the xorshift feedback computation producing the
newest xorshift word from the oldest (`a`, the word being rotated out of
position 0) and the word in the last position (`d`), using the canonical
shift parameters 2, 1 and 4 in `uint32_t` arithmetic. -/
def xorshiftFeedback (a d : Nat) : Nat :=
  let t1 := d ^^^ (d >>> 2)
  let t2 := t1 ^^^ u32 (t1 <<< 1)
  (t2 ^^^ a) ^^^ u32 (a <<< 4)

/-- Modelled from the spec: `Random_getNumber` (declared in `Random.h`, whose
implementation file is absent).  One xorwow step: the four xorshift words
rotate with the newest word produced by `xorshiftFeedback`, the Weyl counter
is incremented by `weylConstant`, and the returned value is the newest
xorshift word plus the counter, all modulo `2^32`.  Inputs are reduced into
`uint32_t` range first, which is the identity on any state a C execution can
hold. -/
def Random_getNumber (st : RandomState) : Nat × RandomState :=
  let a := u32 st.s0
  let w := xorshiftFeedback a (u32 st.s3)
  let c := u32 (st.counter + weylConstant)
  (u32 (w + c), ⟨w, a, u32 st.s1, u32 st.s2, c⟩)

/-- Assemble one 32-bit word from four bytes, little-endian (lowest-addressed
byte is least significant), the convention fixed for this development. -/
def wordFromBytesLE (b0 b1 b2 b3 : Nat) : Nat :=
  b0 + 256 * b1 + 65536 * b2 + 16777216 * b3

/-- The four little-endian bytes of a 32-bit word, lowest-addressed first. -/
def toBytesLE (x : Nat) : List Nat :=
  [x % 256, x / 256 % 256, x / 65536 % 256, x / 16777216 % 256]

/-- Modelled from the spec: `Random_seedManual` (declared in `Random.h`, whose
implementation file is absent).  Overwrites the whole five-word state with
exactly the 20 provided bytes, byte order preserved, interpreted as five
little-endian 32-bit words.  The prior state `old` is ignored: the operation
fully overwrites it. -/
def Random_seedManual (old : RandomState) (seed : List Nat) : RandomState :=
  ⟨wordFromBytesLE (seed.getD 0 0) (seed.getD 1 0) (seed.getD 2 0) (seed.getD 3 0),
   wordFromBytesLE (seed.getD 4 0) (seed.getD 5 0) (seed.getD 6 0) (seed.getD 7 0),
   wordFromBytesLE (seed.getD 8 0) (seed.getD 9 0) (seed.getD 10 0) (seed.getD 11 0),
   wordFromBytesLE (seed.getD 12 0) (seed.getD 13 0) (seed.getD 14 0) (seed.getD 15 0),
   wordFromBytesLE (seed.getD 16 0) (seed.getD 17 0) (seed.getD 18 0) (seed.getD 19 0)⟩

/-- The 20 bytes of a generator state under the little-endian convention,
inverse of the layout used by `Random_seedManual`. -/
def stateToBytesLE (st : RandomState) : List Nat :=
  toBytesLE st.s0 ++ toBytesLE st.s1 ++ toBytesLE st.s2 ++
    toBytesLE st.s3 ++ toBytesLE st.counter

/-- Modelled from the spec: `Random_getBytes` (declared in `Random.h`, whose
implementation file is absent).  Fills a buffer of `n` bytes by repeatedly
calling `Random_getNumber` and copying its four little-endian bytes, or only
the needed leading bytes of the last generated word when fewer than four
remain.  Returns the bytes written and the final state. -/
def Random_getBytes (n : Nat) (st : RandomState) : List Nat × RandomState :=
  if h0 : n = 0 then ([], st)
  else
    let p := Random_getNumber st
    if h4 : 4 ≤ n then
      let rest := Random_getBytes (n - 4) p.2
      (toBytesLE p.1 ++ rest.1, rest.2)
    else ((toBytesLE p.1).take n, p.2)
termination_by n
decreasing_by simp_wf; omega

/-- The list of the first `k` outputs of `Random_getNumber` starting from a
given state. -/
def outputList : RandomState → Nat → List Nat
  | _, 0 => []
  | st, k + 1 =>
      (Random_getNumber st).1 :: outputList (Random_getNumber st).2 k

/-- The state after `k` calls to `Random_getNumber`. -/
def stateAfter : RandomState → Nat → RandomState
  | st, 0 => st
  | st, k + 1 => stateAfter (Random_getNumber st).2 k

/-- The byte stream formed by concatenating the little-endian 4-byte
representations of the first `k` outputs of `Random_getNumber`. -/
def byteStream (st : RandomState) (k : Nat) : List Nat :=
  (outputList st k).foldr (fun x acc => toBytesLE x ++ acc) []

/-- Modelled from the spec: the device-dependent entropy and identity sources
consulted by `Random_seedAutomatic`, represented as an injected capability
(the spec's design note models them as opaque platform services returning raw
bytes).  `trngRead = some bytes` is a successful 20-byte draw from an
available TRNG; `trngRead = none` with `trngAvailable = true` is a transient
acquisition failure such as a hardware timeout.  `deviceId` is a stable
unique device identifier when available. -/
structure PlatformSources where
  trngAvailable : Bool
  trngRead : Option (List Nat)
  deviceId : Option (List Nat)

/-- Modelled from the spec: deterministic derivation of a 20-byte seed from a
unique device identifier, by replicating the identifier bytes to fill the
state. -/
def deriveSeedFromId (uid : List Nat) : List Nat :=
  (List.range 20).map fun i => uid.getD (i % max uid.length 1) 0

/-- Modelled from the spec: the fixed constant seed used when neither a TRNG
nor a unique device identifier is available. -/
def fallbackSeed : List Nat := List.replicate 20 1

/-- Modelled from the spec: `Random_seedAutomatic` (declared in `Random.h`,
whose implementation file is absent).  In priority order: draw 20 bytes from
the TRNG when one is available (reporting `Random_STATUS_ERROR` and leaving
the state unchanged if the draw fails transiently); otherwise derive the seed
from a unique device identifier; otherwise use the fixed constant seed.  On
success the state is overwritten via the manual-seeding path and
`Random_STATUS_SUCCESS` is returned. -/
def Random_seedAutomatic (env : PlatformSources) (old : RandomState) :
    Int × RandomState :=
  if env.trngAvailable then
    match env.trngRead with
    | some entropy => (Random_STATUS_SUCCESS, Random_seedManual old entropy)
    | none => (Random_STATUS_ERROR, old)
  else
    match env.deviceId with
    | some uid => (Random_STATUS_SUCCESS, Random_seedManual old (deriveSeedFromId uid))
    | none => (Random_STATUS_SUCCESS, Random_seedManual old fallbackSeed)

/-- C1: each call to `Random_getNumber` performs one xorwow step: the four
xorshift words rotate, with the newest word produced by the fixed shift-xor
recurrence `xorshiftFeedback` (parameters 2, 1, 4); the fifth Weyl counter
word is incremented by the fixed odd constant 362437; and the returned value
equals the newest xorshift word plus the counter modulo 2^32 — for every
state, hence in particular for every reachable one. -/
theorem getNumber_xorwow_step (st : RandomState) :
    (Random_getNumber st).2.s0 = xorshiftFeedback (u32 st.s0) (u32 st.s3) ∧
    (Random_getNumber st).2.s1 = u32 st.s0 ∧
    (Random_getNumber st).2.s2 = u32 st.s1 ∧
    (Random_getNumber st).2.s3 = u32 st.s2 ∧
    (Random_getNumber st).2.counter = (st.counter + weylConstant) % 2 ^ 32 ∧
    weylConstant % 2 = 1 ∧
    (Random_getNumber st).1 =
      ((Random_getNumber st).2.s0 + (Random_getNumber st).2.counter) % 2 ^ 32 :=
  ⟨rfl, rfl, rfl, rfl, rfl, rfl, rfl⟩

/-- C3: `Random_getNumber` is deterministic given the seeded state: two runs
that seed manually with the same 20-byte value produce identical sequences of
`N` outputs for every `N`, regardless of the pre-seeding states of the two
runs — there is no hidden state beyond the 20 seeded bytes. -/
theorem seedManual_deterministic (old1 old2 : RandomState)
    (s1 s2 : List Nat) (N : Nat) (h : s1 = s2) :
    outputList (Random_seedManual old1 s1) N =
      outputList (Random_seedManual old2 s2) N := by
  subst h; rfl

/-- Witness for `seedManual_deterministic` at a concrete seed and two
distinct pre-seeding states. -/
theorem seedManual_deterministic_witness :
    List.replicate 20 7 = List.replicate 20 7 ∧
    outputList (Random_seedManual ⟨1, 2, 3, 4, 5⟩ (List.replicate 20 7)) 3 =
      outputList (Random_seedManual zeroState (List.replicate 20 7)) 3 :=
  ⟨rfl, seedManual_deterministic ⟨1, 2, 3, 4, 5⟩ zeroState
    (List.replicate 20 7) (List.replicate 20 7) 3 rfl⟩

/-- C7: seeding manually with the all-zero 20-byte buffer is accepted (the
operation is total and yields exactly the all-zero state, from which every
subsequent output follows the modelled xorwow recurrence), and the resulting
output sequence is not constant: the Weyl counter still advances, so already
the first two outputs, 362437 and 724874, differ. -/
theorem seedManual_zero_seed (old : RandomState) :
    Random_seedManual old (List.replicate 20 0) = zeroState ∧
    outputList zeroState 2 = [362437, 724874] ∧
    (362437 : Nat) ≠ 724874 :=
  ⟨rfl, by decide, by decide⟩

/-- C8 counterexample: seeding is not prevented from producing the all-zero
five-word state — `Random_seedManual` applied to the all-zero 20-byte buffer
(from a nonzero prior state) leaves the state all-zero, contradicting the
claim that the post-seeding state is never the all-zero value. -/
theorem seeding_allzero_cex :
    Random_seedManual ⟨1, 2, 3, 4, 5⟩ (List.replicate 20 0) = zeroState := by
  decide

/-- C8 amended: the seeding path sets the state to the all-zero value exactly
when the 20 bytes it installs are all zero; in particular `Random_seedManual`
with any buffer that is not all-zero never yields the all-zero state. -/
theorem seedManual_nonzero_state (old : RandomState)
    (b0 b1 b2 b3 b4 b5 b6 b7 b8 b9 b10 b11 b12 b13 b14 b15 b16 b17 b18 b19 : Nat)
    (h : ¬(b0 = 0 ∧ b1 = 0 ∧ b2 = 0 ∧ b3 = 0 ∧ b4 = 0 ∧ b5 = 0 ∧ b6 = 0 ∧
        b7 = 0 ∧ b8 = 0 ∧ b9 = 0 ∧ b10 = 0 ∧ b11 = 0 ∧ b12 = 0 ∧ b13 = 0 ∧
        b14 = 0 ∧ b15 = 0 ∧ b16 = 0 ∧ b17 = 0 ∧ b18 = 0 ∧ b19 = 0)) :
    Random_seedManual old
      [b0, b1, b2, b3, b4, b5, b6, b7, b8, b9, b10, b11, b12, b13, b14, b15,
        b16, b17, b18, b19] ≠ zeroState := by
  intro he
  apply h
  have h0 := congrArg RandomState.s0 he
  have h1 := congrArg RandomState.s1 he
  have h2 := congrArg RandomState.s2 he
  have h3 := congrArg RandomState.s3 he
  have h4 := congrArg RandomState.counter he
  simp only [Random_seedManual, zeroState, wordFromBytesLE,
    List.getD_cons_zero, List.getD_cons_succ] at h0 h1 h2 h3 h4
  omega

/-- Witness for `seedManual_nonzero_state` at a concrete non-all-zero
buffer. -/
theorem seedManual_nonzero_state_witness :
    ¬((5 : Nat) = 0 ∧ (0 : Nat) = 0 ∧ (0 : Nat) = 0 ∧ (0 : Nat) = 0 ∧
        (0 : Nat) = 0 ∧ (0 : Nat) = 0 ∧ (0 : Nat) = 0 ∧ (0 : Nat) = 0 ∧
        (0 : Nat) = 0 ∧ (0 : Nat) = 0 ∧ (0 : Nat) = 0 ∧ (0 : Nat) = 0 ∧
        (0 : Nat) = 0 ∧ (0 : Nat) = 0 ∧ (0 : Nat) = 0 ∧ (0 : Nat) = 0 ∧
        (0 : Nat) = 0 ∧ (0 : Nat) = 0 ∧ (0 : Nat) = 0 ∧ (0 : Nat) = 0) ∧
    Random_seedManual zeroState
      [5, 0, 0, 0, 0, 0, 0, 0, 0, 0, 0, 0, 0, 0, 0, 0, 0, 0, 0, 0] ≠
      zeroState :=
  ⟨by decide, seedManual_nonzero_state zeroState
    5 0 0 0 0 0 0 0 0 0 0 0 0 0 0 0 0 0 0 0 (by decide)⟩

/-- C10: the status constants of `Random.h` are exactly `0` for success and
`-1` for error, and every execution of `Random_seedAutomatic` returns one of
these two constants. -/
theorem seedAutomatic_status_codes :
    Random_STATUS_SUCCESS = 0 ∧ Random_STATUS_ERROR = -1 ∧
    ∀ (env : PlatformSources) (old : RandomState),
      (Random_seedAutomatic env old).1 = Random_STATUS_SUCCESS ∨
      (Random_seedAutomatic env old).1 = Random_STATUS_ERROR := by
  refine ⟨rfl, rfl, ?_⟩
  intro env old
  rcases env with ⟨avail, tr, did⟩
  cases avail <;> cases tr <;> cases did <;>
    simp [Random_seedAutomatic, Random_STATUS_SUCCESS, Random_STATUS_ERROR]

/-- Round trip: disassembling a word assembled from four bytes returns the
four bytes, little-endian. -/
lemma toBytesLE_wordFromBytesLE (b0 b1 b2 b3 : Nat)
    (h0 : b0 < 256) (h1 : b1 < 256) (h2 : b2 < 256) (h3 : b3 < 256) :
    toBytesLE (wordFromBytesLE b0 b1 b2 b3) = [b0, b1, b2, b3] := by
  simp only [toBytesLE, wordFromBytesLE, List.cons.injEq, and_true]
  omega

/-- C4: for every 20-byte buffer, `Random_seedManual` overwrites the entire
five-word state with exactly the provided bytes (reading the state back under
the module's little-endian convention returns the buffer unchanged, byte
order preserved), the result is independent of the prior state (full
overwrite), the first word is the little-endian assembly of the first four
bytes, and the seed length is the fixed contract constant of 20 bytes. -/
theorem seedManual_layout (old old' : RandomState)
    (b0 b1 b2 b3 b4 b5 b6 b7 b8 b9 b10 b11 b12 b13 b14 b15 b16 b17 b18 b19 : Nat)
    (h : b0 < 256 ∧ b1 < 256 ∧ b2 < 256 ∧ b3 < 256 ∧ b4 < 256 ∧ b5 < 256 ∧
        b6 < 256 ∧ b7 < 256 ∧ b8 < 256 ∧ b9 < 256 ∧ b10 < 256 ∧ b11 < 256 ∧
        b12 < 256 ∧ b13 < 256 ∧ b14 < 256 ∧ b15 < 256 ∧ b16 < 256 ∧
        b17 < 256 ∧ b18 < 256 ∧ b19 < 256) :
    stateToBytesLE (Random_seedManual old
        [b0, b1, b2, b3, b4, b5, b6, b7, b8, b9, b10, b11, b12, b13, b14,
          b15, b16, b17, b18, b19]) =
      [b0, b1, b2, b3, b4, b5, b6, b7, b8, b9, b10, b11, b12, b13, b14, b15,
        b16, b17, b18, b19] ∧
    Random_seedManual old
        [b0, b1, b2, b3, b4, b5, b6, b7, b8, b9, b10, b11, b12, b13, b14,
          b15, b16, b17, b18, b19] =
      Random_seedManual old'
        [b0, b1, b2, b3, b4, b5, b6, b7, b8, b9, b10, b11, b12, b13, b14,
          b15, b16, b17, b18, b19] ∧
    (Random_seedManual old
        [b0, b1, b2, b3, b4, b5, b6, b7, b8, b9, b10, b11, b12, b13, b14,
          b15, b16, b17, b18, b19]).s0 = wordFromBytesLE b0 b1 b2 b3 ∧
    ([b0, b1, b2, b3, b4, b5, b6, b7, b8, b9, b10, b11, b12, b13, b14, b15,
        b16, b17, b18, b19] : List Nat).length = Random_SEED_LENGTH := by
  obtain ⟨h0, h1, h2, h3, h4, h5, h6, h7, h8, h9, h10, h11, h12, h13, h14,
    h15, h16, h17, h18, h19⟩ := h
  refine ⟨?_, rfl, rfl, rfl⟩
  show toBytesLE (wordFromBytesLE b0 b1 b2 b3) ++
      toBytesLE (wordFromBytesLE b4 b5 b6 b7) ++
      toBytesLE (wordFromBytesLE b8 b9 b10 b11) ++
      toBytesLE (wordFromBytesLE b12 b13 b14 b15) ++
      toBytesLE (wordFromBytesLE b16 b17 b18 b19) = _
  rw [toBytesLE_wordFromBytesLE b0 b1 b2 b3 h0 h1 h2 h3,
    toBytesLE_wordFromBytesLE b4 b5 b6 b7 h4 h5 h6 h7,
    toBytesLE_wordFromBytesLE b8 b9 b10 b11 h8 h9 h10 h11,
    toBytesLE_wordFromBytesLE b12 b13 b14 b15 h12 h13 h14 h15,
    toBytesLE_wordFromBytesLE b16 b17 b18 b19 h16 h17 h18 h19]
  rfl

/-- Witness for `seedManual_layout` at the concrete buffer `[1, …, 20]` and
two distinct prior states. -/
theorem seedManual_layout_witness :
    ((1 : Nat) < 256 ∧ (2 : Nat) < 256 ∧ (3 : Nat) < 256 ∧ (4 : Nat) < 256 ∧
      (5 : Nat) < 256 ∧ (6 : Nat) < 256 ∧ (7 : Nat) < 256 ∧ (8 : Nat) < 256 ∧
      (9 : Nat) < 256 ∧ (10 : Nat) < 256 ∧ (11 : Nat) < 256 ∧
      (12 : Nat) < 256 ∧ (13 : Nat) < 256 ∧ (14 : Nat) < 256 ∧
      (15 : Nat) < 256 ∧ (16 : Nat) < 256 ∧ (17 : Nat) < 256 ∧
      (18 : Nat) < 256 ∧ (19 : Nat) < 256 ∧ (20 : Nat) < 256) ∧
    (stateToBytesLE (Random_seedManual zeroState
        [1, 2, 3, 4, 5, 6, 7, 8, 9, 10, 11, 12, 13, 14, 15, 16, 17, 18, 19,
          20]) =
      [1, 2, 3, 4, 5, 6, 7, 8, 9, 10, 11, 12, 13, 14, 15, 16, 17, 18, 19,
        20] ∧
    Random_seedManual zeroState
        [1, 2, 3, 4, 5, 6, 7, 8, 9, 10, 11, 12, 13, 14, 15, 16, 17, 18, 19,
          20] =
      Random_seedManual ⟨9, 9, 9, 9, 9⟩
        [1, 2, 3, 4, 5, 6, 7, 8, 9, 10, 11, 12, 13, 14, 15, 16, 17, 18, 19,
          20] ∧
    (Random_seedManual zeroState
        [1, 2, 3, 4, 5, 6, 7, 8, 9, 10, 11, 12, 13, 14, 15, 16, 17, 18, 19,
          20]).s0 = wordFromBytesLE 1 2 3 4 ∧
    ([1, 2, 3, 4, 5, 6, 7, 8, 9, 10, 11, 12, 13, 14, 15, 16, 17, 18, 19,
        20] : List Nat).length = Random_SEED_LENGTH) :=
  ⟨by decide, seedManual_layout zeroState ⟨9, 9, 9, 9, 9⟩
    1 2 3 4 5 6 7 8 9 10 11 12 13 14 15 16 17 18 19 20 (by decide)⟩

/-- C5: `Random_seedAutomatic` returns the error status exactly when a TRNG
is available but entropy acquisition from it fails transiently; in every
other case it returns success, and the resulting state is the one seeded from
the highest-priority available source: TRNG bytes, else bytes derived from
the unique device identifier, else the fixed constant seed. -/
theorem seedAutomatic_error_iff (env : PlatformSources) (old : RandomState) :
    ((Random_seedAutomatic env old).1 = Random_STATUS_ERROR ↔
      env.trngAvailable = true ∧ env.trngRead = none) ∧
    ((Random_seedAutomatic env old).1 = Random_STATUS_SUCCESS ↔
      ¬(env.trngAvailable = true ∧ env.trngRead = none)) ∧
    (Random_seedAutomatic env old).2 =
      (if env.trngAvailable then
        match env.trngRead with
        | some entropy => Random_seedManual old entropy
        | none => old
      else
        match env.deviceId with
        | some uid => Random_seedManual old (deriveSeedFromId uid)
        | none => Random_seedManual old fallbackSeed) := by
  rcases env with ⟨avail, tr, did⟩
  cases avail <;> cases tr <;> cases did <;>
    simp [Random_seedAutomatic, Random_STATUS_SUCCESS, Random_STATUS_ERROR]

/-- Unfolding the byte stream by one generated word. -/
lemma byteStream_succ (st : RandomState) (k : Nat) :
    byteStream st (k + 1) =
      toBytesLE (Random_getNumber st).1 ++
        byteStream (Random_getNumber st).2 k := rfl

/-- Every word contributes four bytes to the stream. -/
lemma byteStream_length : ∀ (k : Nat) (st : RandomState),
    (byteStream st k).length = 4 * k
  | 0, _ => rfl
  | k + 1, st => by
    rw [byteStream_succ, List.length_append, byteStream_length k]
    simp [toBytesLE]
    omega

/-- The little-endian byte list of a word has four entries. -/
lemma toBytesLE_length (x : Nat) : (toBytesLE x).length = 4 := rfl

/-- Taking `n ≥ 4` bytes from a stream headed by one word's four bytes keeps
the word whole and takes the remaining `n - 4` bytes from the tail. -/
lemma take_toBytes_append (x : Nat) (l : List Nat) (n : Nat) (h : 4 ≤ n) :
    (toBytesLE x ++ l).take n = toBytesLE x ++ l.take (n - 4) := by
  rw [List.take_append_eq_append_take,
    List.take_of_length_le (show (toBytesLE x).length ≤ n by
      rw [toBytesLE_length]; exact h), toBytesLE_length]

/-- `Random_getBytes n` returns the first `n` bytes of the stream of
little-endian words generated by `Random_getNumber`, and leaves the state
where `⌈n/4⌉` calls to `Random_getNumber` leave it. -/
lemma getBytes_eq_stream : ∀ (n : Nat) (st : RandomState),
    Random_getBytes n st =
      ((byteStream st ((n + 3) / 4)).take n, stateAfter st ((n + 3) / 4)) := by
  intro n
  induction n using Nat.strong_induction_on with
  | _ n ih =>
    intro st
    rw [Random_getBytes]
    by_cases h0 : n = 0
    · subst h0
      simp [byteStream, outputList, stateAfter]
    · rw [dif_neg h0]
      by_cases h4 : 4 ≤ n
      · rw [dif_pos h4, ih (n - 4) (by omega) (Random_getNumber st).2]
        have hk : (n + 3) / 4 = (n - 4 + 3) / 4 + 1 := by omega
        rw [hk, byteStream_succ]
        have hst : stateAfter st ((n - 4 + 3) / 4 + 1) =
            stateAfter (Random_getNumber st).2 ((n - 4 + 3) / 4) := rfl
        rw [hst, take_toBytes_append _ _ _ h4]
      · rw [dif_neg h4]
        have hk : (n + 3) / 4 = 1 := by omega
        rw [hk]
        have hb : byteStream st 1 = toBytesLE (Random_getNumber st).1 ++ [] :=
          rfl
        have hst : stateAfter st 1 = (Random_getNumber st).2 := rfl
        rw [hb, hst, List.append_nil]

/-- C2: for every buffer size `n ≥ 0` (including `n = 0` and `n` not a
multiple of 4), `Random_getBytes` started from a given state writes exactly
the first `n` bytes of the stream formed by concatenating the little-endian
4-byte representations of successive `Random_getNumber` outputs from that
same state; only the needed trailing bytes of the last generated word are
taken, and the final state is the state after `⌈n/4⌉` generator calls. -/
theorem getBytes_refines_getNumber (st : RandomState) (n : Nat) :
    Random_getBytes n st =
      ((byteStream st ((n + 3) / 4)).take n, stateAfter st ((n + 3) / 4)) :=
  getBytes_eq_stream n st

/-- C6: the modelled operations are total functions — `Random_seedManual`,
`Random_getNumber` and `Random_getBytes` are plain terminating definitions
with no error outcome in their result types — and on every input
`Random_getNumber` yields a 32-bit unsigned value while `Random_getBytes`
runs to completion writing exactly the requested number of bytes. -/
theorem operations_total (st : RandomState) (n : Nat) :
    (Random_getNumber st).1 < 2 ^ 32 ∧ (Random_getBytes n st).1.length = n := by
  constructor
  · have : (Random_getNumber st).1 = u32 (xorshiftFeedback (u32 st.s0)
        (u32 st.s3) + u32 (st.counter + weylConstant)) := rfl
    rw [this]
    have h := Nat.mod_lt (xorshiftFeedback (u32 st.s0) (u32 st.s3) +
      u32 (st.counter + weylConstant)) (show 0 < U32MOD by norm_num [U32MOD])
    simpa [u32, U32MOD] using h
  · rw [getBytes_eq_stream]
    simp only [List.length_take, byteStream_length]
    omega

end TiRandom
